import Mathlib

/-!
Verification of the concurrent data-access layer of the Go_Microservice
repository: the PostgreSQL-backed `PostStore` (optimistic locking, feed
query), the Redis cache-aside `UserStore`, the application read-through
path `getUser`, and the Redis fixed-window rate limiter.

Each Go function is shallowly embedded as a pure Lean function; the
relational table is a list of rows, Redis is an association list of keys
to values together with failure flags, and `error` returns become
`Except` values.
-/

/-- Sentinel errors of `internal/repo` (`ErrNotFound`, `ErrPostExists`,
`ErrInvalidPostData`), each carrying the wrapping message added by the
`fmt.Errorf("%w: ...")` call site.  `queryFailed` stands for any other
driver error surfaced verbatim. -/
inductive RepoError where
  | notFound (msg : String)
  | postExists (msg : String)
  | invalidPostData (msg : String)
  | queryFailed (msg : String)
deriving DecidableEq, Repr

/-- `true` exactly when the error wraps `ErrInvalidPostData`
(`errors.Is(err, ErrInvalidPostData)` in Go). -/
def RepoError.isInvalidPostData : RepoError → Bool
  | .invalidPostData _ => true
  | _ => false

/-- The `Post` entity of `internal/repo/posts.go`, restricted to the
columns of the `posts` table (`Comments` and `User` are join artifacts,
not columns).  `createdAt`/`updatedAt` model the timestamp columns as
integers so that `ORDER BY created_at` is integer comparison. -/
structure Post where
  id : Int
  title : String
  content : String
  tags : List String
  userID : Int
  createdAt : Int
  updatedAt : Int
  version : Int
deriving DecidableEq, Repr

/-- `(*Post).Validate` from `internal/repo/posts.go`. -/
def Post.validate (p : Post) : Except RepoError Unit :=
  if p.title = "" then .error (.invalidPostData "title is required")
  else if p.content = "" then .error (.invalidPostData "content is required")
  else if p.userID ≤ 0 then .error (.invalidPostData "valid user_id is required")
  else .ok ()

/-- `PostStore.GetByID`: rejects non-positive ids before touching the
database, then `SELECT ... WHERE id = $1` (`QueryRow` reads the first
matching row; `sql.ErrNoRows` becomes `ErrNotFound`). -/
def PostStore.getByID (db : List Post) (id : Int) : Except RepoError Post :=
  if id ≤ 0 then .error (.invalidPostData "invalid post ID")
  else
    match db.find? (fun r => r.id == id) with
    | some r => .ok r
    | none => .error (.notFound "post with ID")

/-- The row transformation performed by the conditional
`UPDATE posts SET title, content, tags, updated_at = NOW(),
version = version + 1 WHERE id = $4 AND version = $5`: rows matching the
`WHERE` clause are rewritten, all others are untouched. -/
def PostStore.updateRow (post : Post) (now : Int) (r : Post) : Post :=
  if r.id == post.id && r.version == post.version then
    { r with title := post.title, content := post.content,
             tags := post.tags, updatedAt := now, version := r.version + 1 }
  else r

/-- Number of rows matched by the `WHERE id = ? AND version = ?` clause. -/
def PostStore.matchedCount (db : List Post) (post : Post) : Nat :=
  db.countP (fun r => r.id == post.id && r.version == post.version)

/-- `PostStore.Update` from `internal/repo/posts.go`: validation, the
positive-id guard, then the conditional update with `RETURNING version`.
Zero affected rows surface `sql.ErrNoRows`, mapped to the single error
`ErrNotFound: post may not exist or version conflict`; on success the
returned post carries the new version scanned back from the database. -/
def PostStore.update (db : List Post) (post : Post) (now : Int) :
    Except RepoError Post × List Post :=
  match post.validate with
  | .error e => (.error (.invalidPostData ("validation failed: " ++
      (match e with | .invalidPostData m => m | _ => ""))), db)
  | .ok _ =>
    if post.id ≤ 0 then (.error (.invalidPostData "invalid post ID for update"), db)
    else
      let db' := db.map (PostStore.updateRow post now)
      if PostStore.matchedCount db post = 0 then
        (.error (.notFound "post may not exist or version conflict"), db')
      else
        (.ok { post with version := post.version + 1 }, db')

/-- `PostStore.Delete` from `internal/repo/posts.go`: positive-id guard,
`DELETE FROM posts WHERE id = $1`, then `RowsAffected == 0 ⇒ ErrNotFound`. -/
def PostStore.delete (db : List Post) (id : Int) :
    Except RepoError Unit × List Post :=
  if id ≤ 0 then (.error (.invalidPostData "invalid post ID"), db)
  else
    let affected := db.countP (fun r => r.id == id)
    let db' := db.filter (fun r => !(r.id == id))
    if affected = 0 then (.error (.notFound "post with ID"), db')
    else (.ok (), db')

/-- The stored versions of all rows with the given id (with a unique
primary key this is `[]` or a singleton). -/
def PostStore.storedVersions (db : List Post) (id : Int) : List Int :=
  (db.filter (fun r => r.id == id)).map (fun r => r.version)

/-! ### Helper lemmas about the conditional update -/

/-- The conditional `UPDATE` never changes the primary key column. -/
theorem PostStore.updateRow_id (post : Post) (now : Int) (r : Post) :
    (PostStore.updateRow post now r).id = r.id := by
  unfold PostStore.updateRow
  split <;> rfl

/-- When the `WHERE` clause matches no row, the `UPDATE` statement leaves
the table unchanged. -/
theorem PostStore.map_updateRow_of_no_match (db : List Post) (post : Post)
    (now : Int) (h : PostStore.matchedCount db post = 0) :
    db.map (PostStore.updateRow post now) = db := by
  have hall := List.countP_eq_zero.mp h
  clear h
  induction db with
  | nil => rfl
  | cons a l ih =>
    have ha : ¬(a.id == post.id && a.version == post.version) = true :=
      hall a (List.mem_cons_self a l)
    have hl : ∀ r ∈ l, ¬(r.id == post.id && r.version == post.version) = true :=
      fun r hr => hall r (List.mem_cons_of_mem a hr)
    simp only [List.map_cons]
    rw [ih hl]
    unfold PostStore.updateRow
    rw [if_neg ha]

/-- C10: for every identifier `id ≤ 0`, `PostStore.GetByID`,
`PostStore.Delete`, and `PostStore.Update` (on a post with `ID ≤ 0`)
return an `ErrInvalidPostData`-wrapped error before performing any
database operation: the result is independent of the table contents and
the table is left unchanged. -/
theorem postStore_nonpositive_id_rejected (db : List Post) (id : Int)
    (post : Post) (now : Int) (hid : id ≤ 0) (hpid : post.id ≤ 0) :
    PostStore.getByID db id = .error (.invalidPostData "invalid post ID") ∧
    PostStore.delete db id = (.error (.invalidPostData "invalid post ID"), db) ∧
    (PostStore.update db post now).2 = db ∧
    (∃ e, (PostStore.update db post now).1 = .error e ∧
          e.isInvalidPostData = true) := by
  refine ⟨?_, ?_, ?_, ?_⟩
  · simp [PostStore.getByID, hid]
  · simp [PostStore.delete, hid]
  · unfold PostStore.update
    cases hv : post.validate with
    | error e => rfl
    | ok u => simp [hpid]
  · unfold PostStore.update
    cases hv : post.validate with
    | error e => exact ⟨_, rfl, rfl⟩
    | ok u =>
      refine ⟨.invalidPostData "invalid post ID for update", ?_, rfl⟩
      simp [hpid]

/-- Witness for C10 at the concrete id `0` and a concrete post whose id
is `0`. -/
theorem postStore_nonpositive_id_rejected_witness :
    PostStore.getByID [] 0 = .error (.invalidPostData "invalid post ID") ∧
    PostStore.delete [] 0 = (.error (.invalidPostData "invalid post ID"), []) ∧
    (PostStore.update [] ⟨0, "t", "c", [], 1, 0, 0, 1⟩ 7).2 = [] ∧
    (∃ e, (PostStore.update [] ⟨0, "t", "c", [], 1, 0, 0, 1⟩ 7).1 = .error e ∧
          e.isInvalidPostData = true) :=
  postStore_nonpositive_id_rejected [] 0 ⟨0, "t", "c", [], 1, 0, 0, 1⟩ 7
    (by decide) (by decide)

/-- C8: for a positive identifier with no corresponding row,
`PostStore.Delete` returns the `ErrNotFound` error and leaves the table
unchanged; when a row exists the call succeeds, and afterwards no row
with that identifier remains (hard delete). -/
theorem postStore_delete_notFound_or_removes (db : List Post) (id : Int)
    (hid : 0 < id) :
    (db.find? (fun r => r.id == id) = none →
       PostStore.delete db id = (.error (.notFound "post with ID"), db)) ∧
    ((∃ r, db.find? (fun r => r.id == id) = some r) →
       (PostStore.delete db id).1 = .ok ()) ∧
    (∀ r ∈ (PostStore.delete db id).2, ¬(r.id = id)) := by
  have h0 : ¬ id ≤ 0 := not_le.mpr hid
  refine ⟨?_, ?_, ?_⟩
  · intro hnone
    have habs : ∀ r ∈ db, ¬((fun r : Post => r.id == id) r = true) :=
      List.find?_eq_none.mp hnone
    have hcnt : db.countP (fun r => r.id == id) = 0 :=
      List.countP_eq_zero.mpr habs
    have hfilter : db.filter (fun r => !(r.id == id)) = db :=
      List.filter_eq_self.mpr (fun a ha => by
        simp only [Bool.not_eq_true']
        exact Bool.of_not_eq_true (habs a ha))
    simp [PostStore.delete, h0, hcnt, hfilter]
  · rintro ⟨r, hr⟩
    have hmem : r ∈ db := List.mem_of_find?_eq_some hr
    have hpr := List.find?_some hr
    have hcnt : db.countP (fun r => r.id == id) ≠ 0 := by
      intro hzero
      exact (List.countP_eq_zero.mp hzero) r hmem hpr
    simp [PostStore.delete, h0, hcnt]
  · intro r hr
    have hsnd : (PostStore.delete db id).2 =
        db.filter (fun r => !(r.id == id)) := by
      simp only [PostStore.delete, if_neg h0]
      split <;> rfl
    rw [hsnd] at hr
    have := (List.mem_filter.mp hr).2
    simp only [Bool.not_eq_eq_eq_not, Bool.not_true, beq_eq_false_iff_ne,
      ne_eq] at this
    exact this

/-- Witness for C8: deleting id `2` from a one-row table holding id `1`
returns `NotFound` and leaves the row in place; the result table holds
no row with id `2`. -/
theorem postStore_delete_notFound_or_removes_witness :
    (([⟨1, "t", "c", [], 1, 0, 0, 1⟩] : List Post).find?
        (fun r => r.id == 2) = none →
       PostStore.delete [⟨1, "t", "c", [], 1, 0, 0, 1⟩] 2 =
         (.error (.notFound "post with ID"), [⟨1, "t", "c", [], 1, 0, 0, 1⟩])) ∧
    ((∃ r, ([⟨1, "t", "c", [], 1, 0, 0, 1⟩] : List Post).find?
        (fun r => r.id == 2) = some r) →
       (PostStore.delete [⟨1, "t", "c", [], 1, 0, 0, 1⟩] 2).1 = .ok ()) ∧
    (∀ r ∈ (PostStore.delete [⟨1, "t", "c", [], 1, 0, 0, 1⟩] 2).2,
       ¬(r.id = 2)) :=
  postStore_delete_notFound_or_removes [⟨1, "t", "c", [], 1, 0, 0, 1⟩] 2
    (by decide)

/-- C6: a vanished row and a version mismatch are indistinguishable to
the caller of `PostStore.Update`: a table holding no row with the post's
id and a table holding the row at a different version both produce one
and the same error value (the single `sql.ErrNoRows` branch). -/
theorem postStore_update_conflict_indistinguishable
    (db1 db2 : List Post) (p q : Post) (now1 now2 : Int)
    (hp : p.validate = .ok ()) (hq : q.validate = .ok ())
    (hpid : 0 < p.id) (hqid : 0 < q.id)
    (habsent : ∀ r ∈ db1, ¬(r.id = p.id))
    (_hexists : ∃ r ∈ db2, r.id = q.id)
    (hmismatch : ∀ r ∈ db2, r.id = q.id → ¬(r.version = q.version)) :
    ∃ e, (PostStore.update db1 p now1).1 = .error e ∧
         (PostStore.update db2 q now2).1 = .error e := by
  have hm1 : PostStore.matchedCount db1 p = 0 :=
    List.countP_eq_zero.mpr (fun r hr => by
      simp only [Bool.and_eq_true, beq_iff_eq]
      rintro ⟨h1, _⟩
      exact habsent r hr h1)
  have hm2 : PostStore.matchedCount db2 q = 0 :=
    List.countP_eq_zero.mpr (fun r hr => by
      simp only [Bool.and_eq_true, beq_iff_eq]
      rintro ⟨h1, h2⟩
      exact hmismatch r hr h1 h2)
  refine ⟨.notFound "post may not exist or version conflict", ?_, ?_⟩
  · simp [PostStore.update, hp, not_le.mpr hpid, hm1]
  · simp [PostStore.update, hq, not_le.mpr hqid, hm2]

/-- Witness for C6: updating post id `5` (present nowhere) and post id `1`
(stored at version `3`, updated with base version `1`) yield the same
error value. -/
theorem postStore_update_conflict_indistinguishable_witness :
    ∃ e, (PostStore.update [] ⟨5, "t", "c", [], 1, 0, 0, 1⟩ 9).1 = .error e ∧
         (PostStore.update [⟨1, "t", "c", [], 1, 0, 0, 3⟩]
            ⟨1, "t2", "c2", [], 1, 0, 0, 1⟩ 9).1 = .error e :=
  postStore_update_conflict_indistinguishable
    [] [⟨1, "t", "c", [], 1, 0, 0, 3⟩]
    ⟨5, "t", "c", [], 1, 0, 0, 1⟩ ⟨1, "t2", "c2", [], 1, 0, 0, 1⟩ 9 9
    rfl rfl (by decide) (by decide)
    (by intro r hr; cases hr) (by exact ⟨_, List.mem_singleton_self _, rfl⟩)
    (by decide)

/-- A table whose stored version list for an id is the singleton `[v]`
has exactly one row with that id, and that row is at version `v`. -/
theorem PostStore.filter_eq_singleton_of_storedVersions
    (db : List Post) (id v : Int)
    (h : PostStore.storedVersions db id = [v]) :
    ∃ a, db.filter (fun r => r.id == id) = [a] ∧ a.version = v := by
  unfold PostStore.storedVersions at h
  cases hf : db.filter (fun r => r.id == id) with
  | nil => rw [hf] at h; cases h
  | cons a l =>
    rw [hf] at h
    simp only [List.map_cons, List.cons.injEq] at h
    obtain ⟨h1, h2⟩ := h
    have hl : l = [] := List.map_eq_nil_iff.mp h2
    exact ⟨a, by rw [hl], h1⟩

/-- C1: optimistic locking in `PostStore.Update`.  For a table whose only
row with the post's id is stored at version `v`, an update carrying base
version `v` succeeds, writes back version `v + 1` into the returned post,
and bumps the stored version to exactly `v + 1`; a second update issued
against the same base version then receives the zero-rows error; and in
general any update whose `WHERE id AND version` clause matches no row is
rejected with that error. -/
theorem postStore_update_optimistic_lock
    (db : List Post) (p1 p2 : Post) (now1 now2 : Int)
    (hv1 : p1.validate = .ok ()) (hv2 : p2.validate = .ok ())
    (hid1 : 0 < p1.id) (hid2 : p2.id = p1.id) (hver2 : p2.version = p1.version)
    (hstored : PostStore.storedVersions db p1.id = [p1.version]) :
    (PostStore.update db p1 now1).1 = .ok { p1 with version := p1.version + 1 } ∧
    PostStore.storedVersions (PostStore.update db p1 now1).2 p1.id =
      [p1.version + 1] ∧
    (PostStore.update (PostStore.update db p1 now1).2 p2 now2).1 =
      .error (.notFound "post may not exist or version conflict") ∧
    (∀ (db' : List Post) (q : Post) (now' : Int), q.validate = .ok () →
       0 < q.id → PostStore.matchedCount db' q = 0 →
       (PostStore.update db' q now').1 =
         .error (.notFound "post may not exist or version conflict")) := by
  obtain ⟨a, hfa, hav⟩ :=
    PostStore.filter_eq_singleton_of_storedVersions db p1.id p1.version hstored
  have hamem : a ∈ db.filter (fun r => r.id == p1.id) := by
    rw [hfa]; exact List.mem_singleton_self a
  have haid : (a.id == p1.id) = true := (List.mem_filter.mp hamem).2
  have hadb : a ∈ db := (List.mem_filter.mp hamem).1
  have hmc : PostStore.matchedCount db p1 ≠ 0 := by
    intro hzero
    exact List.countP_eq_zero.mp hzero a hadb
      (by simp only [Bool.and_eq_true, beq_iff_eq] at haid ⊢
          exact ⟨haid, hav⟩)
  have hgen : ∀ (db' : List Post) (q : Post) (now' : Int), q.validate = .ok () →
      0 < q.id → PostStore.matchedCount db' q = 0 →
      (PostStore.update db' q now').1 =
        .error (.notFound "post may not exist or version conflict") := by
    intro db' q now' hqv hqid hq0
    simp [PostStore.update, hqv, not_le.mpr hqid, hq0]
  have heq : PostStore.update db p1 now1 =
      (.ok { p1 with version := p1.version + 1 },
       db.map (PostStore.updateRow p1 now1)) := by
    simp [PostStore.update, hv1, not_le.mpr hid1, hmc]
  have hfmap : (db.map (PostStore.updateRow p1 now1)).filter
        (fun r => r.id == p1.id) =
      (db.filter (fun r => r.id == p1.id)).map (PostStore.updateRow p1 now1) := by
    rw [List.filter_map]
    congr 1
    apply List.filter_congr
    intro r _
    simp only [Function.comp_apply, PostStore.updateRow_id]
  have hfa' : PostStore.updateRow p1 now1 a =
      { a with title := p1.title, content := p1.content, tags := p1.tags,
               updatedAt := now1, version := a.version + 1 } := by
    unfold PostStore.updateRow
    rw [if_pos]
    simp only [Bool.and_eq_true, beq_iff_eq]
    exact ⟨by simpa using haid, by rw [hav]⟩
  have hsv : PostStore.storedVersions (db.map (PostStore.updateRow p1 now1))
      p1.id = [p1.version + 1] := by
    unfold PostStore.storedVersions
    rw [hfmap, hfa]
    simp only [List.map_cons, List.map_nil, hfa']
    rw [hav]
  have hmc2 : PostStore.matchedCount (db.map (PostStore.updateRow p1 now1))
      p2 = 0 := by
    unfold PostStore.matchedCount
    rw [List.countP_map]
    apply List.countP_eq_zero.mpr
    intro r _
    simp only [Function.comp_apply, Bool.and_eq_true, beq_iff_eq,
      PostStore.updateRow_id, not_and]
    intro _
    unfold PostStore.updateRow
    split
    · rename_i hcond
      simp only [Bool.and_eq_true, beq_iff_eq] at hcond
      simp only [hver2, hcond.2]
      omega
    · rename_i hcond
      simp only [Bool.and_eq_true, beq_iff_eq, not_and] at hcond
      intro hrv
      rename_i hrid
      exact hcond (hid2 ▸ hrid) (hver2 ▸ hrv)
  refine ⟨by rw [heq], by rw [heq]; exact hsv, ?_, hgen⟩
  rw [heq]
  exact hgen _ p2 now2 hv2 (hid2 ▸ hid1) hmc2

/-- Witness for C1: one stored row (id 1, version 1); the first update at
base version 1 succeeds with version 2, the second update at base
version 1 receives the zero-rows error. -/
theorem postStore_update_optimistic_lock_witness :
    (PostStore.update [⟨1, "t", "c", [], 1, 0, 0, 1⟩]
        ⟨1, "t1", "c1", [], 1, 0, 0, 1⟩ 11).1 =
      .ok { id := 1, title := "t1", content := "c1", tags := [], userID := 1,
            createdAt := 0, updatedAt := 0, version := 2 } ∧
    PostStore.storedVersions
        (PostStore.update [⟨1, "t", "c", [], 1, 0, 0, 1⟩]
          ⟨1, "t1", "c1", [], 1, 0, 0, 1⟩ 11).2 1 = [2] ∧
    (PostStore.update
        (PostStore.update [⟨1, "t", "c", [], 1, 0, 0, 1⟩]
          ⟨1, "t1", "c1", [], 1, 0, 0, 1⟩ 11).2
        ⟨1, "t2", "c2", [], 1, 0, 0, 1⟩ 12).1 =
      .error (.notFound "post may not exist or version conflict") ∧
    (∀ (db' : List Post) (q : Post) (now' : Int), q.validate = .ok () →
       0 < q.id → PostStore.matchedCount db' q = 0 →
       (PostStore.update db' q now').1 =
         .error (.notFound "post may not exist or version conflict")) :=
  postStore_update_optimistic_lock [⟨1, "t", "c", [], 1, 0, 0, 1⟩]
    ⟨1, "t1", "c1", [], 1, 0, 0, 1⟩ ⟨1, "t2", "c2", [], 1, 0, 0, 1⟩ 11 12
    rfl rfl (by decide) rfl rfl rfl

/-! ### Cache-aside layer (`internal/repo/cache/users.go`) -/

/-- The `User` entity of `internal/repo` cached by the Redis layer. -/
structure User where
  id : Int
  username : String
  email : String
  password : String
  createdAt : String
deriving DecidableEq, Repr

/-- Outcome of a single Redis string command: a value, the `redis.Nil`
"no such key" reply, or an infrastructure error (connection failure). -/
inductive RedisReply (α : Type) where
  | ok (a : α)
  | nil
  | err (msg : String)
deriving DecidableEq, Repr

/-- The Redis keyspace seen by the cache layer: keys mapped to string
payloads, plus a flag simulating an unreachable backend. -/
structure RedisKV where
  kv : List (String × String)
  failing : Bool
deriving DecidableEq, Repr

/-- `rdb.Get(ctx, key).Result()`: an infrastructure error when the
backend is down, `redis.Nil` when the key is absent, the payload
otherwise. -/
def RedisKV.get (st : RedisKV) (key : String) : RedisReply String :=
  if st.failing then .err "connection refused"
  else
    match st.kv.lookup key with
    | none => .nil
    | some v => .ok v

/-- `buildCacheKey` from `internal/repo/cache/users.go`:
`fmt.Sprintf("user-%d", userID)`. -/
def buildCacheKey (userID : Int) : String := "user-" ++ toString userID

/-- Errors surfaced by the cache `Get`: a wrapped infrastructure error or
a wrapped `json.Unmarshal` failure.  Both are distinct from the `.ok none`
"not present" sentinel by construction. -/
inductive CacheGetError where
  | infra (msg : String)
  | unmarshal (msg : String)
deriving DecidableEq, Repr

/-- `cache.UserStore.Get` from `internal/repo/cache/users.go`:
`redis.Nil` becomes the `(nil, nil)` sentinel, an infrastructure error is
wrapped and returned, an empty payload also becomes the sentinel, and a
non-empty payload is unmarshalled (`decode` stands for `json.Unmarshal`
into `repo.User`). -/
def CacheUserStore.get (decode : String → Except String User) (st : RedisKV)
    (userID : Int) : Except CacheGetError (Option User) :=
  match st.get (buildCacheKey userID) with
  | .nil => .ok none
  | .err m => .error (.infra ("failed to get user from cache: " ++ m))
  | .ok data =>
    if data = "" then .ok none
    else
      match decode data with
      | .error m => .error (.unmarshal ("failed to unmarshal user data: " ++ m))
      | .ok u => .ok (some u)

/-- C7: the cache `Get` distinguishes a miss from an infrastructure
failure.  An absent key yields the `(nil, nil)` sentinel `.ok none` (not
an error); an unreachable backend yields a wrapped infrastructure error;
and that error is never equal to the not-present sentinel. -/
theorem cacheUserStore_get_miss_vs_infra
    (decode : String → Except String User) (st : RedisKV) (userID : Int) :
    (st.failing = false → st.kv.lookup (buildCacheKey userID) = none →
       CacheUserStore.get decode st userID = .ok none) ∧
    (st.failing = true →
       CacheUserStore.get decode st userID =
         .error (.infra "failed to get user from cache: connection refused")) ∧
    (∀ e : CacheGetError,
       (.error e : Except CacheGetError (Option User)) ≠ .ok none) := by
  refine ⟨?_, ?_, ?_⟩
  · intro hup hnone
    simp [CacheUserStore.get, RedisKV.get, hup, hnone]
  · intro hdown
    simp [CacheUserStore.get, RedisKV.get, hdown]
  · intro e h
    cases h

/-- Witness for C7 at a concrete empty keyspace (miss) and a concrete
failing backend. -/
theorem cacheUserStore_get_miss_vs_infra_witness :
    (({ kv := [], failing := false } : RedisKV).failing = false →
       ({ kv := [], failing := false } : RedisKV).kv.lookup
         (buildCacheKey 1) = none →
       CacheUserStore.get (fun _ => .error "bad") { kv := [], failing := false }
         1 = .ok none) ∧
    (({ kv := [], failing := false } : RedisKV).failing = true →
       CacheUserStore.get (fun _ => .error "bad") { kv := [], failing := false }
         1 = .error (.infra "failed to get user from cache: connection refused")) ∧
    (∀ e : CacheGetError,
       (.error e : Except CacheGetError (Option User)) ≠ .ok none) :=
  cacheUserStore_get_miss_vs_infra (fun _ => .error "bad")
    { kv := [], failing := false } 1

/-- C9: a key that is present but holds the empty-string payload is also
reported as the `(nil, nil)` not-present sentinel; no entity is ever
decoded from an empty payload. -/
theorem cacheUserStore_get_empty_payload_sentinel
    (decode : String → Except String User) (st : RedisKV) (userID : Int)
    (hup : st.failing = false)
    (hkey : st.kv.lookup (buildCacheKey userID) = some "") :
    CacheUserStore.get decode st userID = .ok none := by
  simp [CacheUserStore.get, RedisKV.get, hup, hkey]

/-- Witness for C9: a keyspace holding `user-1 ↦ ""` with a decoder that
would return a user on any payload; the result is still the sentinel. -/
theorem cacheUserStore_get_empty_payload_sentinel_witness :
    CacheUserStore.get (fun _ => .ok ⟨1, "u", "e", "p", "now"⟩)
      { kv := [("user-1", "")], failing := false } 1 = .ok none :=
  cacheUserStore_get_empty_payload_sentinel
    (fun _ => .ok ⟨1, "u", "e", "p", "now"⟩)
    { kv := [("user-1", "")], failing := false } 1 rfl rfl

/-! ### Application read-through path (`application.getUser`) -/

/-- The collaborator outcomes observed by one `getUser` call: whether the
Redis cache is enabled, the result of `cacheStorage.Users.Get`, the
result of `repo.Users.GetByID`, and the result of
`cacheStorage.Users.Set`.  Errors are abstract (`E`), as Go's `error`
interface is opaque here. -/
structure GetUserEnv (E : Type) where
  redisEnabled : Bool
  cacheGet : Except E (Option User)
  storeGet : Except E User
  cacheSet : Except E Unit

/-- `application.getUser` from the API layer: with Redis disabled it goes
straight to the store; otherwise cache `Get` errors are returned, a cache
hit is returned, and on a miss the store is read and the entity written
to the cache — with a cache `Set` failure returned to the caller
(`return nil, err`). -/
def getUser {E : Type} (env : GetUserEnv E) : Except E User :=
  if !env.redisEnabled then env.storeGet
  else
    match env.cacheGet with
    | .error e => .error e
    | .ok (some u) => .ok u
    | .ok none =>
      match env.storeGet with
      | .error e => .error e
      | .ok u =>
        match env.cacheSet with
        | .error e => .error e
        | .ok _ => .ok u

/-- Counterexample to C2: with the cache enabled, a cache miss, a store
read that succeeds, and a cache write that fails, `getUser` returns the
cache-write error instead of the entity fetched from the store — the
cache write is not best-effort. -/
theorem getUser_cache_set_failure_fails_read_cex :
    getUser (E := String)
      { redisEnabled := true, cacheGet := .ok none,
        storeGet := .ok ⟨1, "u", "e", "p", "now"⟩,
        cacheSet := .error "redis down" } = .error "redis down" ∧
    getUser (E := String)
      { redisEnabled := true, cacheGet := .ok none,
        storeGet := .ok ⟨1, "u", "e", "p", "now"⟩,
        cacheSet := .error "redis down" } ≠
      .ok ⟨1, "u", "e", "p", "now"⟩ := by
  exact ⟨rfl, fun h => Except.noConfusion h⟩

/-- C2 amended: on the read-through path, a cache miss is followed by a
store read and a cache write, and a failure of that cache write is
propagated: `getUser` returns the cache-write error, not the entity
fetched from the store. -/
theorem getUser_cache_set_failure_propagates {E : Type}
    (u : User) (e : E) :
    getUser { redisEnabled := true, cacheGet := .ok none,
              storeGet := .ok u, cacheSet := .error e } = .error e := rfl

/-! ### Feed query (`PostStore.GetUserFeed`) -/

/-- The `Comment` entity (`internal/repo/commets.go`), restricted to the
columns the feed query touches. -/
structure Comment where
  id : Int
  postID : Int
  userID : Int
  content : String
deriving DecidableEq, Repr

/-- A row of the `followers` table.  A row `(user_id, follower_id)` is
written by `Followers.Follow(ctx, userID, followerID)`, which the API
handlers call as `Follow(ctx, currentUser.ID, followedID)`: `userID` is
the user doing the following. -/
structure Follower where
  userID : Int
  followerID : Int
deriving DecidableEq, Repr

/-- `PaginatedFeedQuery` from `internal/repo` (the fields the SQL uses). -/
structure PaginatedFeedQuery where
  limit : Int
  offset : Int
  sort : String
  tags : List String
  search : String
deriving DecidableEq, Repr

/-- Case-insensitive substring test: `col ILIKE '%' || pat || '%'`. -/
def ilikeContains (hay pat : String) : Bool :=
  let h := hay.toList.map Char.toLower
  let p := pat.toList.map Char.toLower
  (List.range (h.length + 1)).any (fun i => p.isPrefixOf (h.drop i))

/-- PostgreSQL array containment with the empty-filter escape:
`p.tags @> $5 OR $5 = '{}'`. -/
def tagsMatch (ptags qtags : List String) : Bool :=
  qtags.all (fun t => ptags.contains t) || qtags.isEmpty

/-- Row selection of the feed query for user `$1 = userID`: the inner
`JOIN followers f ON f.follower_id = p.user_id OR p.user_id = $1` with
`WHERE f.user_id = $1 AND (title ILIKE ... OR content ILIKE ...) AND
(tags containment)`.  A post survives iff some follower row satisfies the
join and filter conditions. -/
def feedPred (userID : Int) (followers : List Follower)
    (fq : PaginatedFeedQuery) (p : Post) : Bool :=
  followers.any (fun f =>
    f.userID == userID && (f.followerID == p.userID || p.userID == userID)) &&
  (ilikeContains p.title fq.search || ilikeContains p.content fq.search) &&
  tagsMatch p.tags fq.tags

/-- A feed row: the post columns plus the joined username and the
denormalized `COUNT(c.id) AS comments_count`. -/
structure PostWithMetadata where
  post : Post
  username : String
  commentsCount : Nat
deriving DecidableEq, Repr

/-- `PostStore.GetUserFeed` from `internal/repo/posts.go`: select rows by
the join/filter conditions (`GROUP BY p.id` makes membership what
matters), order by `p.created_at` ascending or descending per `fq.Sort`,
apply `LIMIT $2 OFFSET $3`, and annotate each row with the author's
username (`LEFT JOIN users`) and its comment count (`LEFT JOIN comments`). -/
def PostStore.getUserFeed (db : List Post) (comments : List Comment)
    (users : List User) (followers : List Follower) (userID : Int)
    (fq : PaginatedFeedQuery) : List PostWithMetadata :=
  let selected := db.filter (feedPred userID followers fq)
  let sorted :=
    if fq.sort = "desc" then
      selected.insertionSort (fun a b => b.createdAt ≤ a.createdAt)
    else
      selected.insertionSort (fun a b => a.createdAt ≤ b.createdAt)
  let paged := (sorted.drop fq.offset.toNat).take fq.limit.toNat
  paged.map (fun p =>
    { post := p,
      username :=
        match users.find? (fun u => u.id == p.userID) with
        | some u => u.username
        | none => "",
      commentsCount := comments.countP (fun c => c.postID == p.id) })

/-- Counterexample to C5: user 1 authored the only post, the `followers`
table is empty (in particular there is no self-follow edge), and the feed
for user 1 is empty — the inner join on `followers` discards the user's
own post, so the claimed unconditional union does not hold. -/
theorem getUserFeed_own_post_missing_cex :
    PostStore.getUserFeed [⟨1, "hello", "world", [], 1, 0, 0, 1⟩] [] [] [] 1
      ⟨10, 0, "desc", [], ""⟩ = [] ∧
    (⟨1, "hello", "world", [], 1, 0, 0, 1⟩ : Post).userID = 1 := by
  exact ⟨rfl, rfl⟩

/-- C5 amended: the feed of user `U` is the union of `U`'s own posts and
the posts of users `U` follows *provided the `followers` table contains at
least one edge whose `user_id` is `U`*; when `U` has no outgoing follow
edge the inner join produces the empty feed, so `U`'s own posts appear
without a self-follow edge only in the former case. -/
theorem getUserFeed_union_requires_outgoing_edge
    (db : List Post) (comments : List Comment) (users : List User)
    (followers : List Follower) (userID : Int) (fq : PaginatedFeedQuery)
    (p : Post) :
    ((∃ f ∈ followers, f.userID = userID) →
     fq.offset = 0 →
     (db.filter (feedPred userID followers fq)).length ≤ fq.limit.toNat →
     p ∈ db →
     (p.userID = userID ∨
       ∃ f ∈ followers, f.userID = userID ∧ f.followerID = p.userID) →
     (ilikeContains p.title fq.search || ilikeContains p.content fq.search)
       = true →
     tagsMatch p.tags fq.tags = true →
     ∃ pm ∈ PostStore.getUserFeed db comments users followers userID fq,
       pm.post = p) ∧
    ((∀ f ∈ followers, ¬(f.userID = userID)) →
     PostStore.getUserFeed db comments users followers userID fq = []) := by
  constructor
  · intro hedge hoff hlim hp hauthor hsearch htags
    have hpred : feedPred userID followers fq p = true := by
      unfold feedPred
      simp only [Bool.and_eq_true, List.any_eq_true, Bool.or_eq_true,
        beq_iff_eq]
      refine ⟨⟨?_, ?_⟩, ?_⟩
      · rcases hauthor with h | ⟨f, hfm, hfu, hff⟩
        · obtain ⟨f, hfm, hfu⟩ := hedge
          exact ⟨f, hfm, hfu, Or.inr h⟩
        · exact ⟨f, hfm, hfu, Or.inl hff⟩
      · simpa using hsearch
      · exact htags
    have hsel : p ∈ db.filter (feedPred userID followers fq) :=
      List.mem_filter.mpr ⟨hp, hpred⟩
    unfold PostStore.getUserFeed
    by_cases hsort : fq.sort = "desc" <;>
      simp only [hsort, if_true, if_false, reduceIte] <;>
      [skip; skip] <;>
      · refine ⟨_, List.mem_map_of_mem _ ?_, rfl⟩
        rw [hoff]
        simp only [Int.toNat_zero, List.drop_zero]
        rw [List.take_of_length_le]
        · exact (List.mem_insertionSort _).mpr hsel
        · rw [List.length_insertionSort]
          exact hlim
  · intro hnone
    have hsel : db.filter (feedPred userID followers fq) = [] := by
      apply List.filter_eq_nil_iff.mpr
      intro a ha
      unfold feedPred
      simp only [Bool.and_eq_true, List.any_eq_true, Bool.or_eq_true,
        beq_iff_eq, not_and]
      rintro ⟨⟨f, hfm, hfu, _⟩, _⟩
      exact (hnone f hfm hfu).elim
    unfold PostStore.getUserFeed
    rw [hsel]
    split <;> simp [List.insertionSort]

/-- Witness for the amended C5: with the edge `1 follows 2`, user 1's own
post (no self-follow edge) appears in the feed; with no outgoing edge,
the same feed is empty. -/
theorem getUserFeed_union_requires_outgoing_edge_witness :
    (∃ pm ∈ PostStore.getUserFeed
        [⟨2, "post b", "by user two", [], 2, 5, 5, 1⟩,
         ⟨1, "post a", "by user one", [], 1, 3, 3, 1⟩]
        [] [] [⟨1, 2⟩] 1 ⟨10, 0, "desc", [], ""⟩,
       pm.post = ⟨1, "post a", "by user one", [], 1, 3, 3, 1⟩) ∧
    PostStore.getUserFeed
        [⟨2, "post b", "by user two", [], 2, 5, 5, 1⟩,
         ⟨1, "post a", "by user one", [], 1, 3, 3, 1⟩]
        [] [] [] 1 ⟨10, 0, "desc", [], ""⟩ = [] :=
  ⟨(getUserFeed_union_requires_outgoing_edge
      [⟨2, "post b", "by user two", [], 2, 5, 5, 1⟩,
       ⟨1, "post a", "by user one", [], 1, 3, 3, 1⟩]
      [] [] [⟨1, 2⟩] 1 ⟨10, 0, "desc", [], ""⟩
      ⟨1, "post a", "by user one", [], 1, 3, 3, 1⟩).1
      ⟨⟨1, 2⟩, List.mem_singleton_self _, rfl⟩ rfl (by decide) (by decide)
      (Or.inl rfl) (by decide) rfl,
   (getUserFeed_union_requires_outgoing_edge
      [⟨2, "post b", "by user two", [], 2, 5, 5, 1⟩,
       ⟨1, "post a", "by user one", [], 1, 3, 3, 1⟩]
      [] [] [] 1 ⟨10, 0, "desc", [], ""⟩
      ⟨1, "post a", "by user one", [], 1, 3, 3, 1⟩).2
      (fun f hf => absurd hf (List.not_mem_nil f))⟩

/-! ### Rate limiter (`internal/ratelimiter/RedisFixedWindowRateLimiter.go`) -/

/-- A Redis value as used by the limiter: an integer counter together
with its optional expiry instant (absent for keys without a TTL). -/
structure RedisEntry where
  count : Int
  expiry : Option Int
deriving DecidableEq, Repr

/-- The limiter's Redis backend: keyed counters plus flags simulating an
infrastructure failure of each command the limiter issues. -/
structure LimiterRedis where
  kv : List (String × RedisEntry)
  failGet : Bool
  failIncr : Bool
  failTTL : Bool
deriving DecidableEq, Repr

/-- Upsert into the keyspace (Redis `SET`-like association update). -/
def kvSet : List (String × RedisEntry) → String → RedisEntry →
    List (String × RedisEntry)
  | [], k, v => [(k, v)]
  | (k', v') :: rest, k, v =>
    if k' == k then (k, v) :: rest
    else (k', v') :: kvSet rest k v

/-- The entry visible at time `now`: an expired key behaves as deleted. -/
def LimiterRedis.live (st : LimiterRedis) (now : Int) (key : String) :
    Option RedisEntry :=
  match st.kv.lookup key with
  | none => none
  | some e =>
    match e.expiry with
    | none => some e
    | some t => if t ≤ now then none else some e

/-- `rl.client.Get(ctx, key).Int()`: infrastructure error, `redis.Nil`
for a missing/expired key, or the counter value. -/
def LimiterRedis.getInt (st : LimiterRedis) (now : Int) (key : String) :
    RedisReply Int :=
  if st.failGet then .err "connection refused"
  else
    match st.live now key with
    | none => .nil
    | some e => .ok e.count

/-- `rl.client.Incr(ctx, key).Result()`: creates a missing/expired key at
`1` with no TTL, otherwise increments keeping the TTL; `none` models an
infrastructure error. -/
def LimiterRedis.incr (st : LimiterRedis) (now : Int) (key : String) :
    Option Int × LimiterRedis :=
  if st.failIncr then (none, st)
  else
    match st.live now key with
    | none => (some 1, { st with kv := kvSet st.kv key ⟨1, none⟩ })
    | some e =>
      (some (e.count + 1),
       { st with kv := kvSet st.kv key ⟨e.count + 1, e.expiry⟩ })

/-- `rl.client.Expire(ctx, key, window)`: sets the expiry of a live key;
the Go code discards the command's result. -/
def LimiterRedis.expire (st : LimiterRedis) (now : Int) (key : String)
    (d : Int) : LimiterRedis :=
  match st.live now key with
  | none => st
  | some e => { st with kv := kvSet st.kv key ⟨e.count, some (now + d)⟩ }

/-- `rl.client.TTL(ctx, key).Result()`: `-2` for a missing key, `-1` for
a key without expiry, otherwise the remaining time; `none` models an
infrastructure error. -/
def LimiterRedis.ttl (st : LimiterRedis) (now : Int) (key : String) :
    Option Int :=
  if st.failTTL then none
  else
    match st.live now key with
    | none => some (-2)
    | some e =>
      match e.expiry with
      | none => some (-1)
      | some t => some (t - now)

/-- The limiter configuration (`limit`, `window`). -/
structure RedisFixedWindowRateLimiter where
  limit : Int
  window : Int
deriving DecidableEq, Repr

/-- `fmt.Sprintf("rate_limit:%s", ip)`. -/
def rateLimitKey (ip : String) : String := "rate_limit:" ++ ip

/-- The shared increment block of `Allow`: `Incr` (fail-open on error),
then `Expire` exactly when the new counter value is `1`. -/
def RedisFixedWindowRateLimiter.incrPath (rl : RedisFixedWindowRateLimiter)
    (st : LimiterRedis) (now : Int) (key : String) :
    (Bool × Int) × LimiterRedis :=
  match st.incr now key with
  | (none, st') => ((true, 0), st')
  | (some n, st') =>
    if n = 1 then ((true, 0), st'.expire now key rl.window)
    else ((true, 0), st')

/-- `RedisFixedWindowRateLimiter.Allow` from
`internal/ratelimiter/RedisFixedWindowRateLimiter.go`: read the counter
(fail open on error), run the increment block when the key is absent
(`redis.Nil`) or the count is below the limit, otherwise deny with the
remaining TTL (falling back to the whole window if `TTL` errors). -/
def RedisFixedWindowRateLimiter.allow (rl : RedisFixedWindowRateLimiter)
    (st : LimiterRedis) (now : Int) (ip : String) :
    (Bool × Int) × LimiterRedis :=
  let key := rateLimitKey ip
  match st.getInt now key with
  | .err _ => ((true, 0), st)
  | .nil => rl.incrPath st now key
  | .ok c =>
    if c < rl.limit then rl.incrPath st now key
    else
      let t :=
        match st.ttl now key with
        | none => rl.window
        | some t => t
      ((false, t), st)

/-- Iterated calls to `Allow` for one client at the given instants,
threading the backend state. -/
def RedisFixedWindowRateLimiter.allowRun (rl : RedisFixedWindowRateLimiter)
    (st : LimiterRedis) (ip : String) :
    List Int → List (Bool × Int) × LimiterRedis
  | [] => ([], st)
  | t :: ts =>
    let step := rl.allow st t ip
    let rest := rl.allowRun step.2 ip ts
    (step.1 :: rest.1, rest.2)

/-- `true` exactly when this `Allow` call executes the `Incr` command
(key absent, or counter strictly below the limit). -/
def RedisFixedWindowRateLimiter.reachesIncr (rl : RedisFixedWindowRateLimiter)
    (st : LimiterRedis) (now : Int) (ip : String) : Bool :=
  match st.getInt now (rateLimitKey ip) with
  | .nil => true
  | .ok c => decide (c < rl.limit)
  | .err _ => false

/-- Looking up the key just written by `kvSet` yields the new value. -/
theorem lookup_kvSet_self (kv : List (String × RedisEntry)) (k : String)
    (v : RedisEntry) : (kvSet kv k v).lookup k = some v := by
  induction kv with
  | nil => simp [kvSet, List.lookup]
  | cons p rest ih =>
    obtain ⟨k', v'⟩ := p
    by_cases h : k' = k
    · simp [kvSet, h, List.lookup]
    · have hbeq : (k' == k) = false := beq_eq_false_iff_ne.mpr h
      have hbeq' : (k == k') = false :=
        beq_eq_false_iff_ne.mpr (Ne.symm h)
      simp [kvSet, hbeq, List.lookup, hbeq', ih]

/-- First call for a fresh identity: `Allow` grants the request, creates
the counter at `1`, and sets the window expiry with that first increment. -/
theorem RedisFixedWindowRateLimiter.allow_fresh
    (rl : RedisFixedWindowRateLimiter) (st : LimiterRedis) (now : Int)
    (ip : String)
    (hkey : st.kv.lookup (rateLimitKey ip) = none)
    (hfg : st.failGet = false) (hfi : st.failIncr = false) :
    rl.allow st now ip = ((true, 0),
      { st with kv := (kvSet (kvSet st.kv (rateLimitKey ip) ⟨1, none⟩)
          (rateLimitKey ip) ⟨1, some (now + rl.window)⟩) }) := by
  have hlive : st.live now (rateLimitKey ip) = none := by
    unfold LimiterRedis.live
    rw [hkey]
  have hget : st.getInt now (rateLimitKey ip) = .nil := by
    unfold LimiterRedis.getInt
    rw [hfg, hlive]
    rfl
  have hincr : st.incr now (rateLimitKey ip) =
      (some 1, { st with kv := kvSet st.kv (rateLimitKey ip) ⟨1, none⟩ }) := by
    unfold LimiterRedis.incr
    rw [hfi, hlive]
    rfl
  have hexp : ({ st with kv := kvSet st.kv (rateLimitKey ip) ⟨1, none⟩ } :
        LimiterRedis).expire now (rateLimitKey ip) rl.window =
      { st with kv := (kvSet (kvSet st.kv (rateLimitKey ip) ⟨1, none⟩)
          (rateLimitKey ip) ⟨1, some (now + rl.window)⟩) } := by
    unfold LimiterRedis.expire LimiterRedis.live
    rw [lookup_kvSet_self]
  unfold RedisFixedWindowRateLimiter.allow RedisFixedWindowRateLimiter.incrPath
  dsimp only
  rw [hget, hincr]
  dsimp only
  rw [if_pos rfl, hexp]

/-- Middle calls within the window: counter `c` with `1 ≤ c < limit` and a
live expiry `e` at `now < e` yield a grant and the counter `c + 1` with
the expiry untouched (`Expire` is only called when `Incr` returns `1`). -/
theorem RedisFixedWindowRateLimiter.allow_mid
    (rl : RedisFixedWindowRateLimiter) (st : LimiterRedis) (now : Int)
    (ip : String) (c e : Int)
    (hkey : st.kv.lookup (rateLimitKey ip) = some ⟨c, some e⟩)
    (hnow : now < e) (hc1 : 1 ≤ c) (hcl : c < rl.limit)
    (hfg : st.failGet = false) (hfi : st.failIncr = false) :
    rl.allow st now ip = ((true, 0),
      { st with kv := kvSet st.kv (rateLimitKey ip) ⟨c + 1, some e⟩ }) := by
  have hlive : st.live now (rateLimitKey ip) = some ⟨c, some e⟩ := by
    unfold LimiterRedis.live
    rw [hkey]
    simp [not_le.mpr hnow]
  have hget : st.getInt now (rateLimitKey ip) = .ok c := by
    unfold LimiterRedis.getInt
    rw [hfg, hlive]
    rfl
  have hincr : st.incr now (rateLimitKey ip) =
      (some (c + 1),
       { st with kv := kvSet st.kv (rateLimitKey ip) ⟨c + 1, some e⟩ }) := by
    unfold LimiterRedis.incr
    rw [hfi, hlive]
    rfl
  unfold RedisFixedWindowRateLimiter.allow RedisFixedWindowRateLimiter.incrPath
  dsimp only
  rw [hget]
  dsimp only
  rw [if_pos hcl, hincr]
  dsimp only
  rw [if_neg (by omega)]

/-- Denied call: counter at or above the limit within a live window yields
`(false, remaining TTL)` and leaves the state untouched. -/
theorem RedisFixedWindowRateLimiter.allow_deny
    (rl : RedisFixedWindowRateLimiter) (st : LimiterRedis) (now : Int)
    (ip : String) (c e : Int)
    (hkey : st.kv.lookup (rateLimitKey ip) = some ⟨c, some e⟩)
    (hnow : now < e) (hcl : ¬ c < rl.limit)
    (hfg : st.failGet = false) (hft : st.failTTL = false) :
    rl.allow st now ip = ((false, e - now), st) := by
  have hlive : st.live now (rateLimitKey ip) = some ⟨c, some e⟩ := by
    unfold LimiterRedis.live
    rw [hkey]
    simp [not_le.mpr hnow]
  have hget : st.getInt now (rateLimitKey ip) = .ok c := by
    unfold LimiterRedis.getInt
    rw [hfg, hlive]
    rfl
  have httl : st.ttl now (rateLimitKey ip) = some (e - now) := by
    unfold LimiterRedis.ttl
    rw [hft, hlive]
    rfl
  unfold RedisFixedWindowRateLimiter.allow
  dsimp only
  rw [hget]
  dsimp only
  rw [if_neg hcl, httl]

/-- Running `Allow` over a concatenation of call instants composes. -/
theorem RedisFixedWindowRateLimiter.allowRun_append
    (rl : RedisFixedWindowRateLimiter) (ip : String) (l1 l2 : List Int) :
    ∀ st : LimiterRedis,
      rl.allowRun st ip (l1 ++ l2) =
        ((rl.allowRun st ip l1).1 ++
           (rl.allowRun (rl.allowRun st ip l1).2 ip l2).1,
         (rl.allowRun (rl.allowRun st ip l1).2 ip l2).2) := by
  induction l1 with
  | nil => intro st; rfl
  | cons t ts ih =>
    intro st
    simp only [List.cons_append, RedisFixedWindowRateLimiter.allowRun,
      List.append_eq]
    rw [ih]

/-- A run of calls all inside the live window, starting from counter `c`
with enough headroom, grants every call and ends with counter
`c + number of calls`, window expiry and failure flags untouched. -/
theorem RedisFixedWindowRateLimiter.allowRun_below_limit
    (rl : RedisFixedWindowRateLimiter) (ip : String) (e : Int) :
    ∀ (ts : List Int) (st : LimiterRedis) (c : Int),
      st.kv.lookup (rateLimitKey ip) = some ⟨c, some e⟩ →
      st.failGet = false → st.failIncr = false → st.failTTL = false →
      1 ≤ c → c + (ts.length : Int) ≤ rl.limit →
      (∀ t ∈ ts, t < e) →
      (rl.allowRun st ip ts).1 = List.replicate ts.length (true, 0) ∧
      (rl.allowRun st ip ts).2.kv.lookup (rateLimitKey ip) =
        some ⟨c + (ts.length : Int), some e⟩ ∧
      (rl.allowRun st ip ts).2.failGet = false ∧
      (rl.allowRun st ip ts).2.failIncr = false ∧
      (rl.allowRun st ip ts).2.failTTL = false := by
  intro ts
  induction ts with
  | nil =>
    intro st c hkey hfg hfi hft hc1 hcl hts
    simp only [RedisFixedWindowRateLimiter.allowRun, List.length_nil]
    refine ⟨rfl, ?_, hfg, hfi, hft⟩
    rw [hkey]
    norm_num
  | cons t ts ih =>
    intro st c hkey hfg hfi hft hc1 hcl hts
    have hstep := RedisFixedWindowRateLimiter.allow_mid rl st t ip c e hkey
      (hts t (List.mem_cons_self t ts)) hc1
      (by simp only [List.length_cons] at hcl; push_cast at hcl; omega)
      hfg hfi
    have hkey' : (kvSet st.kv (rateLimitKey ip) ⟨c + 1, some e⟩).lookup
        (rateLimitKey ip) = some ⟨c + 1, some e⟩ := lookup_kvSet_self _ _ _
    have hrest := ih
      { st with kv := (kvSet st.kv (rateLimitKey ip) ⟨c + 1, some e⟩) }
      (c + 1) hkey' hfg hfi hft (by omega)
      (by simp only [List.length_cons] at hcl; push_cast at hcl ⊢; omega)
      (fun t' ht' => hts t' (List.mem_cons_of_mem t ht'))
    simp only [RedisFixedWindowRateLimiter.allowRun, hstep]
    obtain ⟨h1, h2, h3, h4, h5⟩ := hrest
    refine ⟨?_, ?_, h3, h4, h5⟩
    · simp only [List.length_cons, List.replicate_succ, h1]
    · rw [h2]
      simp only [List.length_cons]
      push_cast
      ring_nf

/-- C3: fixed-window limiting for a fresh identity.  With limit
`L = ts.length + 1` and window `W`, the first `L` calls within the window
(at `t0` and then at instants `ts`) are all granted — the counter is
incremented each time and the window expiry `t0 + W` is set together with
the first increment — and the `(L+1)`-th call at `tf` is denied with a
retry-after of `t0 + W - tf`, which is positive and at most `W`. -/
theorem rateLimiter_fresh_window_limit
    (rl : RedisFixedWindowRateLimiter) (st : LimiterRedis) (ip : String)
    (t0 tf : Int) (ts : List Int)
    (hfresh : st.kv.lookup (rateLimitKey ip) = none)
    (hfg : st.failGet = false) (hfi : st.failIncr = false)
    (hft : st.failTTL = false)
    (hlim : (ts.length : Int) + 1 = rl.limit)
    (hts : ∀ t ∈ ts, t0 ≤ t ∧ t < t0 + rl.window)
    (htf0 : t0 ≤ tf) (htfw : tf < t0 + rl.window) :
    (rl.allowRun st ip (t0 :: ts ++ [tf])).1 =
      List.replicate (ts.length + 1) (true, 0) ++
        [(false, t0 + rl.window - tf)] ∧
    0 < t0 + rl.window - tf ∧ t0 + rl.window - tf ≤ rl.window := by
  have hpack : ∃ st1 : LimiterRedis, rl.allow st t0 ip = ((true, 0), st1) ∧
      st1.kv.lookup (rateLimitKey ip) = some ⟨1, some (t0 + rl.window)⟩ ∧
      st1.failGet = false ∧ st1.failIncr = false ∧ st1.failTTL = false :=
    ⟨_, RedisFixedWindowRateLimiter.allow_fresh rl st t0 ip hfresh hfg hfi,
     lookup_kvSet_self _ _ _, hfg, hfi, hft⟩
  obtain ⟨st1, h1, hk1, hg1, hi1, ht1⟩ := hpack
  obtain ⟨hr1, hr2, hr3, hr4, hr5⟩ :=
    RedisFixedWindowRateLimiter.allowRun_below_limit rl ip
      (t0 + rl.window) ts st1 1 hk1 hg1 hi1 ht1 (le_refl 1) (by omega)
      (fun t ht => (hts t ht).2)
  have hdeny := RedisFixedWindowRateLimiter.allow_deny rl
    (rl.allowRun st1 ip ts).2 tf ip (1 + (ts.length : Int))
    (t0 + rl.window) hr2 htfw (by omega) hr3 hr5
  refine ⟨?_, by omega, by omega⟩
  show (rl.allowRun st ip (t0 :: (ts ++ [tf]))).1 = _
  simp only [RedisFixedWindowRateLimiter.allowRun]
  rw [h1]
  dsimp only
  rw [RedisFixedWindowRateLimiter.allowRun_append rl ip ts [tf] st1]
  rw [hr1]
  simp only [RedisFixedWindowRateLimiter.allowRun]
  rw [hdeny]
  dsimp only
  rw [List.replicate_succ, List.cons_append]

/-- Witness for C3: `limit=3, window=10`, fresh identity, calls at
`0, 1, 2` granted, the 4th call at `3` denied with retry-after `7 ≤ 10`. -/
theorem rateLimiter_fresh_window_limit_witness :
    ((⟨3, 10⟩ : RedisFixedWindowRateLimiter).allowRun
        ⟨[], false, false, false⟩ "1.2.3.4" (0 :: [1, 2] ++ [3])).1 =
      List.replicate ([1, 2].length + 1) (true, 0) ++
        [(false, 0 + (10 : Int) - 3)] ∧
    (0 : Int) < 0 + 10 - 3 ∧ (0 : Int) + 10 - 3 ≤ 10 :=
  rateLimiter_fresh_window_limit ⟨3, 10⟩ ⟨[], false, false, false⟩
    "1.2.3.4" 0 3 [1, 2] rfl rfl rfl rfl (by decide) (by decide)
    (by decide) (by decide)

/-- C4: the limiter fails open.  If the counter read hits an
infrastructure error, or the increment is reached and hits an
infrastructure error, `Allow` returns `(true, 0)` — the request is never
blocked because the limiter backend is unavailable, whatever the prior
counter state. -/
theorem rateLimiter_fail_open (rl : RedisFixedWindowRateLimiter)
    (st : LimiterRedis) (now : Int) (ip : String)
    (h : st.failGet = true ∨
         (st.failIncr = true ∧ rl.reachesIncr st now ip = true)) :
    (rl.allow st now ip).1 = (true, 0) := by
  rcases h with hfg | ⟨hfi, hreach⟩
  · have hget : st.getInt now (rateLimitKey ip) = .err "connection refused" := by
      unfold LimiterRedis.getInt
      rw [hfg]
      rfl
    unfold RedisFixedWindowRateLimiter.allow
    dsimp only
    rw [hget]
  · have hincr : st.incr now (rateLimitKey ip) = (none, st) := by
      unfold LimiterRedis.incr
      rw [hfi]
      rfl
    unfold RedisFixedWindowRateLimiter.reachesIncr at hreach
    unfold RedisFixedWindowRateLimiter.allow RedisFixedWindowRateLimiter.incrPath
    dsimp only
    cases hget : st.getInt now (rateLimitKey ip) with
    | err m => rfl
    | nil => rw [hincr]
    | ok c =>
      rw [hget] at hreach
      have hc : c < rl.limit := of_decide_eq_true hreach
      dsimp only
      rw [if_pos hc, hincr]

/-- Witness for C4: a fully failing backend with a stored count of `100`
against `limit=3` still grants, and a backend whose `Incr` alone fails
grants a fresh identity. -/
theorem rateLimiter_fail_open_witness :
    ((⟨3, 10⟩ : RedisFixedWindowRateLimiter).allow
        ⟨[("rate_limit:9.9.9.9", ⟨100, none⟩)], true, true, true⟩ 0
        "9.9.9.9").1 = (true, 0) ∧
    ((⟨3, 10⟩ : RedisFixedWindowRateLimiter).allow
        ⟨[], false, true, false⟩ 0 "9.9.9.9").1 = (true, 0) :=
  ⟨rateLimiter_fail_open ⟨3, 10⟩
      ⟨[("rate_limit:9.9.9.9", ⟨100, none⟩)], true, true, true⟩ 0 "9.9.9.9"
      (Or.inl rfl),
   rateLimiter_fail_open ⟨3, 10⟩ ⟨[], false, true, false⟩ 0 "9.9.9.9"
      (Or.inr ⟨rfl, by decide⟩)⟩
